import Mathlib

/-!
Verification of the Apple TV Search Tool (`src/AppleTV_Search_tool.py`).

This file gives a shallow embedding of the program's core:
the relevance scoring function `_score_result`, the shelf/item
normalization pipeline of `ATVSearch.search` (people-shelf skipping,
deduplication by identifier, URL-shape validation, type filtering,
sorting and truncation), the region resolver
`get_storefront_for_region` together with the storefront selection in
`ATVSearch.__init__`, and a small model of Python values for the JSON
extraction layer of `search`.

Strings are modelled as Lean `String`s; Python's `str.lower()` /
`str.upper()` are modelled character-wise (the data handled is ASCII),
and Python integers as `Int` (`Nat` for list positions).
-/

namespace ATV

/-- Python `s.lower()`, character-wise. -/
def pyLower (s : String) : String := String.mk (s.data.map Char.toLower)

/-- Python `s.upper()`, character-wise. -/
def pyUpper (s : String) : String := String.mk (s.data.map Char.toUpper)

/-- Python `needle in hay` for strings: substring containment. -/
def substrB (needle hay : String) : Bool := decide (needle.data <:+: hay.data)

/-- Python `hay.startswith(needle)`. -/
def startsWithB (needle hay : String) : Bool := decide (needle.data <+: hay.data)

/-- Python `s.split()` (no separator): split on whitespace runs, dropping
empty pieces. -/
def pyWords (s : String) : List String :=
  ((s.data.splitOnP (fun c => c.isWhitespace)).filter (fun w => w ≠ [])).map String.mk

/-- Embedding of `ATVSearch._score_result` (lines 129-160): tier bonus for
exact / startswith / space-bounded substring / bare substring, +50 per
query word occurring in the title's word list, plus `max(0, 100 - position)`. -/
def score_result (title query : String) (position : Nat) : Int :=
  let title_lower := pyLower title
  let query_lower := pyLower query
  let tier : Int :=
    if title_lower = query_lower then 1000
    else if startsWithB query_lower title_lower then 500
    else if substrB (" " ++ query_lower) (" " ++ title_lower) then 300
    else if substrB query_lower title_lower then 200
    else 0
  let query_words := pyWords query_lower
  let title_words := pyWords title_lower
  let withWords : Int :=
    tier + 50 * (((query_words.filter (fun w => w ∈ title_words)).length : Nat) : Int)
  withWords + max 0 (100 - (position : Int))

/-- Tier bonus of `_score_result` in isolation (the `if/elif` chain of
lines 141-148), stated from the claim's wording for the refinement check. -/
def tierBonus (title query : String) : Int :=
  let tl := pyLower title
  let ql := pyLower query
  if tl = ql then 1000
  else if startsWithB ql tl then 500
  else if substrB (" " ++ ql) (" " ++ tl) then 300
  else if substrB ql tl then 200
  else 0

/-- Word-overlap count of the claim's wording: number of lower-cased query
words (with multiplicity) occurring in the lower-cased title's word list. -/
def overlapCount (title query : String) : Nat :=
  ((pyWords (pyLower query)).filter (fun w => w ∈ pyWords (pyLower title))).length

/-- Position bonus of the claim's wording: `max(0, 100 - position)`. -/
def posBonus (position : Nat) : Int := max 0 (100 - (position : Int))

/-- Score as the specification describes it: sum of tier bonus,
word-overlap bonus, and position bonus. -/
def scoreSpec (title query : String) (position : Nat) : Int :=
  tierBonus title query + 50 * (overlapCount title query : Int) + posBonus position

/-- Tier predicate: the exact-match tier fires. -/
def tierExact (title query : String) : Bool :=
  pyLower title = pyLower query

/-- Tier predicate: the prefix tier fires (checked after exact). -/
def tierStarts (title query : String) : Bool :=
  !tierExact title query && startsWithB (pyLower query) (pyLower title)

/-- Tier predicate: the space-bounded substring tier fires (third check). -/
def tierBounded (title query : String) : Bool :=
  !tierExact title query && !startsWithB (pyLower query) (pyLower title) &&
    substrB (" " ++ pyLower query) (" " ++ pyLower title)

/-- Tier predicate: the bare substring tier fires (last check). -/
def tierBare (title query : String) : Bool :=
  !tierExact title query && !startsWithB (pyLower query) (pyLower title) &&
    !substrB (" " ++ pyLower query) (" " ++ pyLower title) &&
    substrB (pyLower query) (pyLower title)

/-- Number of tiers that apply to a (title, query) pair. -/
def tierCount (title query : String) : Nat :=
  (if tierExact title query then 1 else 0) +
  (if tierStarts title query then 1 else 0) +
  (if tierBounded title query then 1 else 0) +
  (if tierBare title query then 1 else 0)

/-- A raw item of a shelf, with the fields `search` reads via `.get`
(`none` models an absent field; line 208 and 214-217). -/
structure Item where
  id : Option String
  title : Option String
  type : Option String
  localizedType : Option String
  url : Option String
deriving DecidableEq

/-- A shelf of the response: its `id` (line 197, default `""` applied) and
its `items` list (line 205, default `[]` applied). -/
structure Shelf where
  id : String
  items : List Item
deriving DecidableEq

/-- One entry of the list `search` returns (the dict built at lines 239-248). -/
structure SearchResult where
  score : Int
  id : String
  title : String
  type : String
  raw_type : String
  url : String
deriving DecidableEq

/-- Python truthiness of an optional string (`if not x`): `none` and `""`
are falsy. -/
def truthyS : Option String → Bool
  | none => false
  | some s => s ≠ ""

/-- People-shelf test of lines 200-202:
`"PN" in shelf_id or "people" in shelf_id.lower()`. -/
def isPeopleShelf (shelf_id : String) : Bool :=
  substrB "PN" shelf_id || substrB "people" (pyLower shelf_id)

/-- URL-shape validation of lines 220-225: the item is kept only when the
url is non-empty and contains `/show/`, `/movie/` or `/person/`. -/
def validUrl (url : String) : Bool :=
  url ≠ "" && (substrB "/show/" url || substrB "/movie/" url || substrB "/person/" url)

/-- Content-type filter of lines 227-235: with a truthy filter, `movie`
requires `/movie/` in the url and `show`/`series` require `/show/`;
any other value imposes no condition. -/
def passesFilter (filter_type : Option String) (url : String) : Bool :=
  match filter_type with
  | none => true
  | some ft0 =>
    if ft0 = "" then true
    else
      let ft := pyLower ft0
      let is_movie := substrB "/movie/" url
      let is_show := substrB "/show/" url
      if ft = "movie" && !is_movie then false
      else if (ft = "show" || ft = "series") && !is_show then false
      else true

/-- Construction of one result entry (lines 214-217 field defaults and the
dict of lines 239-248). -/
def mkResult (query : String) (position : Nat) (it : Item) (cid : String) : SearchResult :=
  let title := it.title.getD "Unknown"
  let content_type := it.type.getD "Unknown"
  let localized_type := it.localizedType.getD content_type
  let url := it.url.getD ""
  { score := score_result title query position
    id := cid
    title := title
    type := localized_type
    raw_type := content_type
    url := url }

/-- Item loop of `search` (lines 207-248) for one shelf: threads the
`seen_ids` set (a list with set semantics) and the 0-based within-shelf
position, returning the updated seen set and the appended results. The
identifier is added to the seen set before the URL and filter checks,
exactly as line 212 precedes lines 220-235. -/
def processItems (query : String) (filter_type : Option String) :
    List Item → Nat → List String → List String × List SearchResult
  | [], _, seen => (seen, [])
  | it :: rest, position, seen =>
    match it.id with
    | none => processItems query filter_type rest (position + 1) seen
    | some cid =>
      if cid = "" ∨ cid ∈ seen then
        processItems query filter_type rest (position + 1) seen
      else
        let url := it.url.getD ""
        if validUrl url && passesFilter filter_type url then
          let out := processItems query filter_type rest (position + 1) (cid :: seen)
          (out.1, mkResult query position it cid :: out.2)
        else
          processItems query filter_type rest (position + 1) (cid :: seen)

/-- Shelf loop of `search` (lines 196-248): a people shelf is skipped
entirely (with its seen set untouched) when `include_people` is not set. -/
def processShelves (query : String) (include_people : Bool) (filter_type : Option String) :
    List Shelf → List String → List String × List SearchResult
  | [], seen => (seen, [])
  | sh :: rest, seen =>
    if !include_people && isPeopleShelf sh.id then
      processShelves query include_people filter_type rest seen
    else
      let s1 := processItems query filter_type sh.items 0 seen
      let s2 := processShelves query include_people filter_type rest s1.1
      (s2.1, s1.2 ++ s2.2)

/-- Shelf loop with no people check at all (what the loop does when
`include_people` is set). -/
def processShelvesAll (query : String) (filter_type : Option String) :
    List Shelf → List String → List String × List SearchResult
  | [], seen => (seen, [])
  | sh :: rest, seen =>
    let s1 := processItems query filter_type sh.items 0 seen
    let s2 := processShelvesAll query filter_type rest s1.1
    (s2.1, s1.2 ++ s2.2)

/-- Sort order of line 251, `key=lambda x: (-x["score"], x["title"])`:
score descending, ties broken by title ascending (code-point order). -/
def resultLE (a b : SearchResult) : Bool :=
  b.score < a.score || (a.score = b.score && decide (a.title ≤ b.title))

/-- Sorting and truncation of lines 250-254: sort, then take the first
`max_results` entries when that value is a positive integer. -/
def finalize (max_results : Option Int) (results : List SearchResult) : List SearchResult :=
  let sorted := results.mergeSort resultLE
  match max_results with
  | some m => if 0 < m then sorted.take m.toNat else sorted
  | none => sorted

/-- Ordering relation the specification describes for the returned list:
score descending, ties broken by title ascending. -/
def sortedRel (a b : SearchResult) : Prop :=
  b.score < a.score ∨ (a.score = b.score ∧ a.title ≤ b.title)

/-- Core of `ATVSearch.search` (lines 189-256), starting from the extracted
shelf list: `if not shelves: return []`, then the shelf/item loops, then
sort and truncate. -/
def searchCore (query : String) (include_people : Bool) (filter_type : Option String)
    (max_results : Option Int) (shelves : List Shelf) : List SearchResult :=
  if shelves = [] then []
  else finalize max_results (processShelves query include_people filter_type shelves []).2

/-- One region record of the storefronts response, as the resolver reads it:
the association list maps an upper-case region code to the record's
(stringified) `storefrontId` field, `none` when that field is missing.
A region code absent from the list models both a missing key and a falsy
(empty) record, which lines 121-122 treat alike. -/
def lookupRegion (data : List (String × Option String)) (k : String) :
    Option (Option String) :=
  match data.find? (fun p => p.1 = k) with
  | some p => some p.2
  | none => none

/-- Embedding of `get_storefront_for_region` (lines 95-127). `fetch = none`
models the exception path (transport failure, non-success status, or a body
on which `.json()`/`.get` fails), caught at line 124. On a fetched mapping,
the record for the upper-cased region code is looked up; a present record
yields `str(record.get("storefrontId"))` — which is the string "None" when
the field is missing — and otherwise the function returns `none` (Python
`None`, the NOT_FOUND outcome). -/
def get_storefront_for_region (region : String)
    (fetch : Option (List (String × Option String))) : Option String :=
  match fetch with
  | none => none
  | some data =>
    match lookupRegion data (pyUpper region) with
    | none => none
    | some sfid => some (sfid.getD "None")

/-- Storefront selection of `ATVSearch.__init__` (lines 67-81): resolve the
region when given and no storefront id, falling back to "143441" with a
warning (the returned Bool) when resolution yields a falsy value; default
to "143441" when nothing was given. -/
def initStorefront (storefront_id region : Option String)
    (fetch : Option (List (String × Option String))) : String × Bool :=
  if truthyS region && !truthyS storefront_id then
    match get_storefront_for_region (region.getD "") fetch with
    | some s => if s = "" then ("143441", true) else (s, false)
    | none => ("143441", true)
  else
    if truthyS storefront_id then (storefront_id.getD "", false) else ("143441", false)

/-- A Python value as delivered by `resp.json()`: the JSON scalars, lists
and string-keyed dicts. -/
inductive JVal where
  | jnull : JVal
  | jbool : Bool → JVal
  | jnum : Int → JVal
  | jstr : String → JVal
  | jarr : List JVal → JVal
  | jobj : List (String × JVal) → JVal

/-- Python truthiness of a JSON value. -/
def jTruthy : JVal → Bool
  | .jnull => false
  | .jbool b => b
  | .jnum n => n ≠ 0
  | .jstr s => s ≠ ""
  | .jarr xs => !xs.isEmpty
  | .jobj kvs => !kvs.isEmpty

/-- Exceptions the `search` body can raise past its `try` block. -/
inductive PyErr where
  | attributeError : PyErr
  | typeError : PyErr
deriving DecidableEq

/-- A hashable dict-member key: Python `None`, numbers (a `bool` is an
`int`, so `True` collapses to `1`), and strings. Lists and dicts are
unhashable and raise `TypeError` on set membership. -/
inductive JKey where
  | knull : JKey
  | knum : Int → JKey
  | kstr : String → JKey
deriving DecidableEq

/-- Set-membership key of a value: errors with `TypeError` on unhashable
values (lists, dicts), as `content_id in seen_ids` does at line 209. -/
def keyOf : JVal → Except PyErr JKey
  | .jnull => .ok .knull
  | .jbool b => .ok (.knum (if b then 1 else 0))
  | .jnum n => .ok (.knum n)
  | .jstr s => .ok (.kstr s)
  | .jarr _ => .error .typeError
  | .jobj _ => .error .typeError

/-- Python `receiver.get(key, default)`: an `AttributeError` when the
receiver is not a dict. -/
def pyGetDefault (v : JVal) (key : String) (dflt : JVal) : Except PyErr JVal :=
  match v with
  | .jobj kvs =>
    match kvs.find? (fun p => p.1 = key) with
    | some p => .ok p.2
    | none => .ok dflt
  | _ => .error .attributeError

/-- Python `pat in v` for a string pattern: substring test on strings,
membership on lists (string equality only, as a string equals no other
type), key membership on dicts, `TypeError` otherwise. -/
def pyContains (pat : String) : JVal → Except PyErr Bool
  | .jstr s => .ok (substrB pat s)
  | .jarr xs => .ok (xs.any (fun x => match x with | .jstr s => s = pat | _ => false))
  | .jobj kvs => .ok (kvs.any (fun p => p.1 = pat))
  | _ => .error .typeError

/-- Python iteration `for x in v`: lists yield elements, strings their
characters, dicts their keys; other values raise `TypeError`. -/
def pyIter : JVal → Except PyErr (List JVal)
  | .jarr xs => .ok xs
  | .jstr s => .ok (s.data.map (fun c => .jstr (String.mk [c])))
  | .jobj kvs => .ok (kvs.map (fun p => JVal.jstr p.1))
  | _ => .error .typeError

/-- The shelf-list extraction of line 189:
`data.get("data", {}).get("canvas", {}).get("shelves", [])`. -/
def extractShelves (data : JVal) : Except PyErr JVal := do
  let d ← pyGetDefault data "data" (.jobj [])
  let c ← pyGetDefault d "canvas" (.jobj [])
  pyGetDefault c "shelves" (.jarr [])

/-- One entry of the result list at the JSON level: the fields of the dict
of lines 239-248 with the types they can actually carry (the title is a
string, since `_score_result` calls `title.lower()` before the append). -/
structure JResult where
  score : Int
  id : JVal
  title : String
  type : JVal
  raw_type : JVal
  url : JVal

/-- Body of the item loop (lines 207-248) on raw values: each `.get` can
raise `AttributeError` on a non-dict item, the seen-set membership raises
`TypeError` on an unhashable identifier, the `in url` tests raise
`TypeError` on non-container urls, and `title.lower()` in `_score_result`
raises `AttributeError` on a non-string title. -/
def jitemStep (query : String) (filter_type : Option String) (position : Nat)
    (item : JVal) (seen : List JKey) : Except PyErr (List JKey × Option JResult) := do
  let idv ← pyGetDefault item "id" .jnull
  if jTruthy idv = false then return (seen, none)
  let k ← keyOf idv
  if k ∈ seen then return (seen, none)
  let seen1 := k :: seen
  let titlev ← pyGetDefault item "title" (.jstr "Unknown")
  let typev ← pyGetDefault item "type" (.jstr "Unknown")
  let locv ← pyGetDefault item "localizedType" typev
  let urlv ← pyGetDefault item "url" (.jstr "")
  if jTruthy urlv = false then return (seen1, none)
  let c1 ← pyContains "/show/" urlv
  let c2 ← pyContains "/movie/" urlv
  let c3 ← pyContains "/person/" urlv
  if !c1 && !c2 && !c3 then return (seen1, none)
  let keep ← (match filter_type with
    | none => pure true
    | some ft0 =>
      if ft0 = "" then pure true
      else do
        let ft := pyLower ft0
        let is_movie ← pyContains "/movie/" urlv
        let is_show ← pyContains "/show/" urlv
        if ft = "movie" && !is_movie then pure false
        else if (ft = "show" || ft = "series") && !is_show then pure false
        else pure true)
  if keep = false then return (seen1, none)
  match titlev with
  | .jstr t =>
    return (seen1, some { score := score_result t query position, id := idv,
                          title := t, type := locv, raw_type := typev, url := urlv })
  | _ => throw .attributeError

/-- Item loop over one shelf's items with 0-based positions. -/
def jitemsLoop (query : String) (filter_type : Option String) :
    List JVal → Nat → List JKey → Except PyErr (List JKey × List JResult)
  | [], _, seen => .ok (seen, [])
  | item :: rest, position, seen => do
    let s1 ← jitemStep query filter_type position item seen
    let s2 ← jitemsLoop query filter_type rest (position + 1) s1.1
    match s1.2 with
    | some r => .ok (s2.1, r :: s2.2)
    | none => .ok (s2.1, s2.2)

/-- Body of the shelf loop (lines 196-248) on raw values. The shelf id is
read first (line 197); the people test then short-circuits: `"PN" in
shelf_id` before `shelf_id.lower()`, the latter raising `AttributeError`
on a non-string id, and neither is evaluated when `include_people` is set. -/
def jshelfStep (query : String) (include_people : Bool) (filter_type : Option String)
    (shelf : JVal) (seen : List JKey) : Except PyErr (List JKey × List JResult) := do
  let sid ← pyGetDefault shelf "id" (.jstr "")
  let skip ← (if include_people then pure false
    else do
      let a ← pyContains "PN" sid
      if a then pure true
      else match sid with
        | .jstr s => pure (substrB "people" (pyLower s))
        | _ => throw PyErr.attributeError)
  if skip then return (seen, [])
  let itemsv ← pyGetDefault shelf "items" (.jarr [])
  let items ← pyIter itemsv
  jitemsLoop query filter_type items 0 seen

/-- Shelf loop over the extracted shelves. -/
def jshelvesLoop (query : String) (include_people : Bool) (filter_type : Option String) :
    List JVal → List JKey → Except PyErr (List JKey × List JResult)
  | [], seen => .ok (seen, [])
  | shelf :: rest, seen => do
    let s1 ← jshelfStep query include_people filter_type shelf seen
    let s2 ← jshelvesLoop query include_people filter_type rest s1.1
    .ok (s2.1, s1.2 ++ s2.2)

/-- Sort order of line 251 at the JSON level (titles of appended results
are always strings, so the sort itself cannot raise). -/
def jresultLE (a b : JResult) : Bool :=
  b.score < a.score || (a.score = b.score && decide (a.title ≤ b.title))

/-- Embedding of `ATVSearch.search` (lines 179-256) from the fetch outcome:
`fetch = none` is the caught `requests.RequestException` path (transport
failure, non-success status, undecodable body) — the Bool records that the
error diagnostic was printed and `[]` is returned. A fetched value is then
processed outside any `try`, so the shape errors of the loops propagate. -/
def searchFromJson (query : String) (include_people : Bool) (filter_type : Option String)
    (max_results : Option Int) (fetch : Option JVal) :
    Except PyErr (Bool × List JResult) :=
  match fetch with
  | none => .ok (true, [])
  | some data => do
    let shelvesv ← extractShelves data
    if jTruthy shelvesv = false then return (false, [])
    let shelves ← pyIter shelvesv
    let s ← jshelvesLoop query include_people filter_type shelves []
    let sorted := s.2.mergeSort jresultLE
    return (false, match max_results with
      | some m => if 0 < m then sorted.take m.toNat else sorted
      | none => sorted)

section Lemmas

/-- Reflexivity of Python substring containment. -/
lemma substrB_refl (s : String) : substrB s s = true := by
  simp [substrB]

/-- A startswith match is in particular a substring match. -/
lemma substrB_of_starts {q t : String} (h : startsWithB q t = true) :
    substrB q t = true := by
  simp [startsWithB] at h
  simp [substrB]
  exact h.isInfix

/-- A space-bounded substring match is in particular a substring match. -/
lemma substrB_of_bounded {q t : String} (h : substrB (" " ++ q) (" " ++ t) = true) :
    substrB q t = true := by
  simp [substrB, String.data_append] at h
  simp [substrB]
  rcases List.infix_cons_iff.mp h with hp | hi
  · exact (List.cons_prefix_cons.mp hp).2.isInfix
  · exact ((List.suffix_cons ' ' q.data).isInfix).trans hi

/-- A substring of a non-empty pattern forces a non-empty subject. -/
lemma ne_empty_of_substrB {p u : String} (h : substrB p u = true) (hp : p ≠ "") :
    u ≠ "" := by
  simp [substrB] at h
  intro hu
  apply hp
  apply String.ext
  have hl := h.length_le
  rw [hu] at hl
  simpa using List.length_eq_zero.mp (Nat.le_zero.mp hl)

/-- The tier bonus is one of the five constants and is non-negative. -/
lemma tierBonus_nonneg (title query : String) : 0 ≤ tierBonus title query := by
  unfold tierBonus
  dsimp only
  split_ifs <;> omega

end Lemmas

/-- Claim C1: `_score_result` is the sum of the tier bonus (1000 / 500 /
300 / 200 / 0 chain), +50 per lower-cased query word found in the
lower-cased title's word list (with multiplicity), and `max(0, 100 -
position)`; consequently, with equal word overlap and equal position, a
pair in a strictly higher tier scores strictly higher — so exact beats
startswith beats space-bounded beats bare substring. -/
theorem c1_score_decomposition :
    ∀ (title query : String) (position : Nat),
      score_result title query position = scoreSpec title query position ∧
      ∀ t2 q2, overlapCount t2 q2 = overlapCount title query →
        tierBonus t2 q2 < tierBonus title query →
        score_result t2 q2 position < score_result title query position := by
  have heq : ∀ (t q : String) (p : Nat), score_result t q p = scoreSpec t q p := by
    intro t q p
    rfl
  intro title query position
  refine ⟨heq title query position, ?_⟩
  intro t2 q2 hov htier
  rw [heq, heq]
  unfold scoreSpec
  rw [hov]
  omega

/-- Witness for C1 at concrete inputs: with equal overlap and position,
the startswith tier ("Foundation II") scores below the exact tier. -/
theorem c1_score_decomposition_witness :
    score_result "Foundation II" "Foundation" 0 < score_result "Foundation" "Foundation" 0 :=
  (c1_score_decomposition "Foundation" "Foundation" 0).2 "Foundation II" "Foundation"
    (by decide) (by decide)

/-- Counterexample to claim C6 as stated: for title "b" and query "a" the
lowered query is not a substring of the lowered title, so none of the four
scoring tiers applies — not exactly one. -/
theorem c6_tier_cex : tierCount "b" "a" = 0 := by decide

/-- Claim C6 amended: the four tiers are mutually exclusive (at most one
applies, in the priority order reflected by the tier predicates), exactly
one applies precisely when the lowered query is a substring of the lowered
title, and each firing tier contributes its constant to the tier bonus
(0 when no tier fires). -/
theorem c6_tier_exclusive :
    ∀ title query,
      tierCount title query ≤ 1 ∧
      (tierCount title query = 1 ↔ substrB (pyLower query) (pyLower title) = true) ∧
      (tierExact title query = true → tierBonus title query = 1000) ∧
      (tierStarts title query = true → tierBonus title query = 500) ∧
      (tierBounded title query = true → tierBonus title query = 300) ∧
      (tierBare title query = true → tierBonus title query = 200) ∧
      (tierCount title query = 0 → tierBonus title query = 0) := by
  intro title query
  have hrefl : pyLower title = pyLower query →
      startsWithB (pyLower query) (pyLower title) = true := by
    intro h
    rw [h]
    simp [startsWithB]
  have h2 := @substrB_of_starts (pyLower query) (pyLower title)
  have h3 := @substrB_of_bounded (pyLower query) (pyLower title)
  by_cases he : pyLower title = pyLower query <;>
    cases hs : startsWithB (pyLower query) (pyLower title) <;>
    cases hb : substrB (" " ++ pyLower query) (" " ++ pyLower title) <;>
    cases hu : substrB (pyLower query) (pyLower title) <;>
    simp_all [tierCount, tierExact, tierStarts, tierBounded, tierBare, tierBonus]

/-- Witness for C6 amended at a concrete input: "Foundation" is a bounded
substring of "The Foundation Show", so exactly one tier applies there. -/
theorem c6_tier_exclusive_witness :
    tierCount "The Foundation Show" "Foundation" = 1 :=
  (c6_tier_exclusive "The Foundation Show" "Foundation").2.1.mpr (by decide)

section PipelineLemmas

/-- The score is at least the position bonus. -/
lemma posBonus_le_score (t q : String) (p : Nat) : posBonus p ≤ score_result t q p := by
  have h1 := tierBonus_nonneg t q
  have h2 : score_result t q p = scoreSpec t q p := rfl
  have h3 : (0 : Int) ≤ 50 * (overlapCount t q : Int) := by positivity
  rw [h2]
  unfold scoreSpec
  omega

/-- The position bonus is non-negative. -/
lemma posBonus_nonneg (p : Nat) : 0 ≤ posBonus p := le_max_left 0 _

end PipelineLemmas

/-- Seen-set characterization of the item loop: the final seen set holds
exactly the initial seen set plus every non-empty identifier occurring in
the processed items — regardless of URL validation or type filtering. -/
lemma processItems_fst_iff (q : String) (ft : Option String) :
    ∀ (items : List Item) (position : Nat) (seen : List String) (x : String),
      x ∈ (processItems q ft items position seen).1 ↔
        x ∈ seen ∨ (x ≠ "" ∧ ∃ it ∈ items, it.id = some x) := by
  intro items
  induction items with
  | nil =>
    intro position seen x
    simp [processItems]
  | cons it rest ih =>
    intro position seen x
    cases hid : it.id with
    | none =>
      simp only [processItems, hid]
      rw [ih]
      simp [hid]
    | some cid =>
      by_cases hdup : cid = "" ∨ cid ∈ seen
      · simp only [processItems, hid, if_pos hdup]
        rw [ih]
        simp only [List.mem_cons, hid]
        constructor
        · rintro (h | ⟨hx, it2, hm, he⟩)
          · exact Or.inl h
          · exact Or.inr ⟨hx, it2, Or.inr hm, he⟩
        · rintro (h | ⟨hx, it2, hm | hm, he⟩)
          · exact Or.inl h
          · rw [hm, hid] at he
            rcases Option.some.injEq .. ▸ he with rfl
            rcases hdup with h0 | h0
            · exact absurd h0 hx
            · exact Or.inl h0
          · exact Or.inr ⟨hx, it2, hm, he⟩
      · have hfst : (processItems q ft (it :: rest) position seen).1 =
            (processItems q ft rest (position + 1) (cid :: seen)).1 := by
          simp only [processItems, hid, if_neg hdup]
          split <;> rfl
        rw [hfst, ih]
        push_neg at hdup
        simp only [List.mem_cons, hid]
        constructor
        · rintro ((rfl | h) | ⟨hx, it2, hm, he⟩)
          · exact Or.inr ⟨hdup.1, it, Or.inl rfl, hid⟩
          · exact Or.inl h
          · exact Or.inr ⟨hx, it2, Or.inr hm, he⟩
        · rintro (h | ⟨hx, it2, hm | hm, he⟩)
          · exact Or.inl (Or.inr h)
          · rw [hm, hid] at he
            rcases Option.some.injEq .. ▸ he with rfl
            exact Or.inl (Or.inl rfl)
          · exact Or.inr ⟨hx, it2, hm, he⟩

/-- The results of the item loop carry pairwise-distinct identifiers, all
fresh with respect to the initial seen set and recorded in the final one. -/
lemma processItems_snd_spec (q : String) (ft : Option String) :
    ∀ (items : List Item) (position : Nat) (seen : List String),
      (((processItems q ft items position seen).2.map SearchResult.id).Nodup ∧
       ∀ r ∈ (processItems q ft items position seen).2,
         r.id ∉ seen ∧ r.id ∈ (processItems q ft items position seen).1) := by
  intro items
  induction items with
  | nil =>
    intro position seen
    simp [processItems]
  | cons it rest ih =>
    intro position seen
    cases hid : it.id with
    | none =>
      simp only [processItems, hid]
      exact ih (position + 1) seen
    | some cid =>
      by_cases hdup : cid = "" ∨ cid ∈ seen
      · simp only [processItems, hid, if_pos hdup]
        exact ih (position + 1) seen
      · push_neg at hdup
        by_cases hv : (validUrl (it.url.getD "") && passesFilter ft (it.url.getD "")) = true
        · have hstep : processItems q ft (it :: rest) position seen =
              ((processItems q ft rest (position + 1) (cid :: seen)).1,
               mkResult q position it cid ::
                 (processItems q ft rest (position + 1) (cid :: seen)).2) := by
            simp only [processItems, hid]
            rw [if_neg (by push_neg; exact hdup), if_pos hv]
          obtain ⟨hnd, hall⟩ := ih (position + 1) (cid :: seen)
          rw [hstep]
          constructor
          · simp only [List.map_cons, List.nodup_cons]
            refine ⟨?_, hnd⟩
            intro hmem
            simp only [List.mem_map] at hmem
            obtain ⟨r, hr, hrid⟩ := hmem
            have := (hall r hr).1
            rw [hrid] at this
            exact this (by simp [mkResult])
          · intro r hr
            simp only [List.mem_cons] at hr
            rcases hr with rfl | hr
            · constructor
              · simp only [mkResult]
                exact hdup.2
              · rw [processItems_fst_iff]
                exact Or.inl (by simp [mkResult])
            · obtain ⟨hns, hin⟩ := hall r hr
              exact ⟨fun hmem => hns (List.mem_cons_of_mem _ hmem), hin⟩
        · have hstep : processItems q ft (it :: rest) position seen =
              processItems q ft rest (position + 1) (cid :: seen) := by
            simp only [processItems, hid]
            rw [if_neg (by push_neg; exact hdup), if_neg hv]
          obtain ⟨hnd, hall⟩ := ih (position + 1) (cid :: seen)
          rw [hstep]
          refine ⟨hnd, fun r hr => ?_⟩
          obtain ⟨hns, hin⟩ := hall r hr
          exact ⟨fun hmem => hns (List.mem_cons_of_mem _ hmem), hin⟩

/-- Seen-set characterization of the shelf loop: the final seen set holds
the initial one plus every non-empty identifier occurring in a shelf that
is not skipped by the people filter. -/
lemma processShelves_fst_iff (q : String) (ip : Bool) (ft : Option String) :
    ∀ (shelves : List Shelf) (seen : List String) (x : String),
      x ∈ (processShelves q ip ft shelves seen).1 ↔
        x ∈ seen ∨ ∃ sh ∈ shelves, (!ip && isPeopleShelf sh.id) = false ∧
          x ≠ "" ∧ ∃ it ∈ sh.items, it.id = some x := by
  intro shelves
  induction shelves with
  | nil =>
    intro seen x
    simp [processShelves]
  | cons sh rest ih =>
    intro seen x
    by_cases hskip : (!ip && isPeopleShelf sh.id) = true
    · simp only [processShelves, if_pos hskip]
      rw [ih]
      simp only [List.mem_cons]
      constructor
      · rintro (h | ⟨sh2, hm, hc⟩)
        · exact Or.inl h
        · exact Or.inr ⟨sh2, Or.inr hm, hc⟩
      · rintro (h | ⟨sh2, hm | hm, hc⟩)
        · exact Or.inl h
        · rw [hm] at hc
          rw [hskip] at hc
          exact absurd hc.1 (by simp)
        · exact Or.inr ⟨sh2, hm, hc⟩
    · have hskip' : (!ip && isPeopleShelf sh.id) = false := by
        simpa using hskip
      simp only [processShelves, if_neg hskip]
      rw [ih, processItems_fst_iff]
      simp only [List.mem_cons]
      constructor
      · rintro ((h | h) | ⟨sh2, hm, hc⟩)
        · exact Or.inl h
        · exact Or.inr ⟨sh, Or.inl rfl, hskip', h⟩
        · exact Or.inr ⟨sh2, Or.inr hm, hc⟩
      · rintro (h | ⟨sh2, hm | hm, hc⟩)
        · exact Or.inl (Or.inl h)
        · rw [hm] at hc
          exact Or.inl (Or.inr hc.2)
        · exact Or.inr ⟨sh2, hm, hc⟩

/-- The accumulated results of the shelf loop carry pairwise-distinct
identifiers, all fresh with respect to the initial seen set. -/
lemma processShelves_snd_spec (q : String) (ip : Bool) (ft : Option String) :
    ∀ (shelves : List Shelf) (seen : List String),
      (((processShelves q ip ft shelves seen).2.map SearchResult.id).Nodup ∧
       ∀ r ∈ (processShelves q ip ft shelves seen).2,
         r.id ∉ seen ∧ r.id ∈ (processShelves q ip ft shelves seen).1) := by
  intro shelves
  induction shelves with
  | nil =>
    intro seen
    simp [processShelves]
  | cons sh rest ih =>
    intro seen
    by_cases hskip : (!ip && isPeopleShelf sh.id) = true
    · simp only [processShelves, if_pos hskip]
      exact ih seen
    · simp only [processShelves, if_neg hskip]
      obtain ⟨hnd1, hall1⟩ := processItems_snd_spec q ft sh.items 0 seen
      obtain ⟨hnd2, hall2⟩ := ih (processItems q ft sh.items 0 seen).1
      have hsub1 : ∀ y, y ∈ (processItems q ft sh.items 0 seen).1 →
          y ∈ (processShelves q ip ft rest (processItems q ft sh.items 0 seen).1).1 := by
        intro y hy
        rw [processShelves_fst_iff]
        exact Or.inl hy
      have hsub0 : ∀ y, y ∈ seen → y ∈ (processItems q ft sh.items 0 seen).1 := by
        intro y hy
        rw [processItems_fst_iff]
        exact Or.inl hy
      constructor
      · rw [List.map_append, List.nodup_append]
        refine ⟨hnd1, hnd2, ?_⟩
        intro a ha hb
        simp only [List.mem_map] at ha hb
        obtain ⟨r1, hr1, hid1⟩ := ha
        obtain ⟨r2, hr2, hid2⟩ := hb
        have h1 : a ∈ (processItems q ft sh.items 0 seen).1 := hid1 ▸ (hall1 r1 hr1).2
        have h2 := (hall2 r2 hr2).1
        rw [hid2] at h2
        exact h2 h1
      · intro r hr
        simp only [List.mem_append] at hr
        rcases hr with hr | hr
        · obtain ⟨hns, hin⟩ := hall1 r hr
          exact ⟨hns, hsub1 _ hin⟩
        · obtain ⟨hns, hin⟩ := hall2 r hr
          exact ⟨fun hc => hns (hsub0 _ hc), hin⟩

/-- Finalizing the empty accumulated list yields the empty list. -/
lemma finalize_nil (mr : Option Int) : finalize mr [] = [] := by
  unfold finalize
  cases mr with
  | none => simp
  | some m => split <;> simp

/-- Every returned entry comes from the accumulated list. -/
lemma mem_finalize {mr : Option Int} {l : List SearchResult} {r : SearchResult}
    (h : r ∈ finalize mr l) : r ∈ l := by
  have hsort : ∀ x, x ∈ l.mergeSort resultLE → x ∈ l := by
    intro x hx
    exact (List.mergeSort_perm l resultLE).mem_iff.mp hx
  unfold finalize at h
  cases mr with
  | none => exact hsort r h
  | some m =>
    rcases (by assumption : r ∈ if 0 < m then (l.mergeSort resultLE).take m.toNat
        else l.mergeSort resultLE) with hmem
    split at hmem
    · exact hsort r (List.mem_of_mem_take hmem)
    · exact hsort r hmem

/-- Finalizing preserves distinctness of identifiers. -/
lemma finalize_map_id_nodup {mr : Option Int} {l : List SearchResult}
    (h : (l.map SearchResult.id).Nodup) :
    ((finalize mr l).map SearchResult.id).Nodup := by
  have hperm : ((l.mergeSort resultLE).map SearchResult.id).Perm (l.map SearchResult.id) :=
    (List.mergeSort_perm l resultLE).map _
  have hnd : ((l.mergeSort resultLE).map SearchResult.id).Nodup := hperm.symm.nodup h
  unfold finalize
  cases mr with
  | none => exact hnd
  | some m =>
    dsimp only
    split
    · rw [List.map_take]
      exact hnd.sublist (List.take_sublist _ _)
    · exact hnd

/-- `searchCore` is exactly `finalize` applied to the accumulated results
(the empty-shelves early return coincides with finalizing no results). -/
lemma searchCore_eq_finalize (q : String) (ip : Bool) (ft : Option String)
    (mr : Option Int) (shelves : List Shelf) :
    searchCore q ip ft mr shelves = finalize mr (processShelves q ip ft shelves []).2 := by
  unfold searchCore
  split
  · rename_i h
    subst h
    simp [processShelves, finalize_nil]
  · rfl

/-- Every result produced by the item loop has a non-negative score. -/
lemma processItems_score_nonneg (q : String) (ft : Option String) :
    ∀ (items : List Item) (position : Nat) (seen : List String) r,
      r ∈ (processItems q ft items position seen).2 → 0 ≤ r.score := by
  intro items
  induction items with
  | nil =>
    intro position seen r hr
    simp [processItems] at hr
  | cons it rest ih =>
    intro position seen r hr
    cases hid : it.id with
    | none =>
      simp only [processItems, hid] at hr
      exact ih _ _ _ hr
    | some cid =>
      by_cases hdup : cid = "" ∨ cid ∈ seen
      · simp only [processItems, hid, if_pos hdup] at hr
        exact ih _ _ _ hr
      · by_cases hv : (validUrl (it.url.getD "") && passesFilter ft (it.url.getD "")) = true
        · simp only [processItems, hid, if_neg hdup, if_pos hv] at hr
          rcases List.mem_cons.mp hr with rfl | hr
          · show (0 : Int) ≤ (mkResult q position it cid).score
            simp only [mkResult]
            exact le_trans (posBonus_nonneg position) (posBonus_le_score _ _ _)
          · exact ih _ _ _ hr
        · simp only [processItems, hid, if_neg hdup, if_neg hv] at hr
          exact ih _ _ _ hr

/-- Every result accumulated by the shelf loop has a non-negative score. -/
lemma processShelves_score_nonneg (q : String) (ip : Bool) (ft : Option String) :
    ∀ (shelves : List Shelf) (seen : List String) r,
      r ∈ (processShelves q ip ft shelves seen).2 → 0 ≤ r.score := by
  intro shelves
  induction shelves with
  | nil =>
    intro seen r hr
    simp [processShelves] at hr
  | cons sh rest ih =>
    intro seen r hr
    by_cases hskip : (!ip && isPeopleShelf sh.id) = true
    · simp only [processShelves, if_pos hskip] at hr
      exact ih _ _ hr
    · simp only [processShelves, if_neg hskip] at hr
      rcases List.mem_append.mp hr with hr | hr
      · exact processItems_score_nonneg q ft _ _ _ r hr
      · exact ih _ _ hr

/-- Claim C2 (amended): the seen set of the item loop records every
non-empty identifier of the traversed items regardless of URL validation
and type filtering; the seen set of the shelf loop records exactly the
non-empty identifiers of shelves not skipped by the people filter; every
returned result's identifier is fresh with respect to the initial seen set
(first traversed occurrence wins); and the id field is pairwise distinct
across any list `search` returns. -/
theorem c2_dedup :
    (∀ (q : String) (ft : Option String) items position seen x,
        x ∈ (processItems q ft items position seen).1 ↔
          x ∈ seen ∨ (x ≠ "" ∧ ∃ it ∈ items, it.id = some x)) ∧
    (∀ (q : String) (ip : Bool) (ft : Option String) shelves seen x,
        x ∈ (processShelves q ip ft shelves seen).1 ↔
          x ∈ seen ∨ ∃ sh ∈ shelves, (!ip && isPeopleShelf sh.id) = false ∧
            x ≠ "" ∧ ∃ it ∈ sh.items, it.id = some x) ∧
    (∀ (q : String) (ip : Bool) (ft : Option String) shelves seen r,
        r ∈ (processShelves q ip ft shelves seen).2 → r.id ∉ seen) ∧
    (∀ (q : String) (ip : Bool) (ft : Option String) mr shelves,
        ((searchCore q ip ft mr shelves).map SearchResult.id).Nodup) := by
  refine ⟨processItems_fst_iff, processShelves_fst_iff, ?_, ?_⟩
  · intro q ip ft shelves seen r hr
    exact ((processShelves_snd_spec q ip ft shelves seen).2 r hr).1
  · intro q ip ft mr shelves
    rw [searchCore_eq_finalize]
    exact finalize_map_id_nodup (processShelves_snd_spec q ip ft shelves []).1

/-- Witness for C2 at a concrete input: an item with identifier "X1" and
no URL is rejected, yet "X1" is recorded in the seen set. -/
theorem c2_dedup_witness :
    "X1" ∈ (processItems "q" none [⟨some "X1", none, none, none, none⟩] 0 []).1 :=
  (c2_dedup.1 "q" none [⟨some "X1", none, none, none, none⟩] 0 [] "X1").mpr
    (Or.inr ⟨by decide, ⟨some "X1", none, none, none, none⟩, by simp, rfl⟩)

/-- Counterexample to claim C2 as stated: the first occurrence of "X123"
sits in a people shelf, which is skipped whole with `include_people`
unset, so that occurrence is NOT recorded as seen — the later occurrence
in an ordinary shelf is kept, where the claim predicts it is skipped
because the first (rejected) occurrence should have burned the id. -/
theorem c2_dedup_cex :
    isPeopleShelf "uts.col.Featured.PN" = true ∧
    (searchCore "q" false none none
      [⟨"uts.col.Featured.PN", [⟨some "X123", some "T", none, none, some "bad"⟩]⟩,
       ⟨"Top", [⟨some "X123", some "T", none, none,
                 some "https://tv.apple.com/us/movie/x"⟩]⟩]).map
        SearchResult.id = ["X123"] := by
  constructor
  · decide
  · rw [searchCore_eq_finalize]
    simp +decide [processShelves, processItems, finalize, isPeopleShelf, substrB, pyLower,
      validUrl, passesFilter, mkResult, List.mergeSort_singleton]

/-- Claim C10: the scoring function returns at least the position bonus,
hence a non-negative integer, and every result in any list returned by
`search` has a non-negative score. -/
theorem c10_score_nonneg :
    (∀ (title query : String) (position : Nat),
        posBonus position ≤ score_result title query position ∧
        0 ≤ score_result title query position) ∧
    (∀ (q : String) (ip : Bool) (ft : Option String) mr shelves r,
        r ∈ searchCore q ip ft mr shelves → 0 ≤ r.score) := by
  constructor
  · intro t qr p
    exact ⟨posBonus_le_score t qr p,
      le_trans (posBonus_nonneg p) (posBonus_le_score t qr p)⟩
  · intro q ip ft mr shelves r hr
    rw [searchCore_eq_finalize] at hr
    exact processShelves_score_nonneg q ip ft shelves [] r (mem_finalize hr)

/-- Witness for C10 at a concrete input. -/
theorem c10_score_nonneg_witness : 0 ≤ score_result "Severance" "see" 7 :=
  (c10_score_nonneg.1 "Severance" "see" 7).2

/-- The Boolean sort key agrees with the specification's ordering. -/
lemma resultLE_iff (a b : SearchResult) : resultLE a b = true ↔ sortedRel a b := by
  simp [resultLE, sortedRel]

/-- The sort key is transitive. -/
lemma resultLE_trans :
    ∀ a b c : SearchResult, resultLE a b = true → resultLE b c = true →
      resultLE a c = true := by
  intro a b c hab hbc
  rw [resultLE_iff] at hab hbc ⊢
  rcases hab with h | ⟨h1, h2⟩ <;> rcases hbc with g | ⟨g1, g2⟩
  · exact Or.inl (by omega)
  · exact Or.inl (by omega)
  · exact Or.inl (by omega)
  · exact Or.inr ⟨by omega, le_trans h2 g2⟩

/-- The sort key is total. -/
lemma resultLE_total :
    ∀ a b : SearchResult, (resultLE a b || resultLE b a) = true := by
  intro a b
  rcases lt_trichotomy a.score b.score with h | h | h
  · simp only [Bool.or_eq_true]
    exact Or.inr ((resultLE_iff b a).mpr (Or.inl h))
  · rcases le_total a.title b.title with ht | ht
    · simp only [Bool.or_eq_true]
      exact Or.inl ((resultLE_iff a b).mpr (Or.inr ⟨h, ht⟩))
    · simp only [Bool.or_eq_true]
      exact Or.inr ((resultLE_iff b a).mpr (Or.inr ⟨h.symm, ht⟩))
  · simp only [Bool.or_eq_true]
    exact Or.inl ((resultLE_iff a b).mpr (Or.inl h))

/-- Claim C3: the returned list is the accumulated list sorted by score
descending with ties broken by title ascending (a permutation, pairwise in
that order), truncated to the first `max_results` entries when that value
is positive, and returned whole when it is absent or non-positive; and
`search` is exactly this sort-and-truncate step applied to the
accumulated results. -/
theorem c3_sort_truncate :
    ∀ results : List SearchResult,
      (∀ mr, (finalize mr results).Pairwise sortedRel) ∧
      (finalize none results).Perm results ∧
      (∀ k : Int, 0 < k →
          finalize (some k) results = (finalize none results).take k.toNat) ∧
      (∀ k : Int, k ≤ 0 → finalize (some k) results = finalize none results) ∧
      (∀ (q : String) (ip : Bool) (ft : Option String) mr shelves,
          searchCore q ip ft mr shelves =
            finalize mr (processShelves q ip ft shelves []).2) := by
  intro results
  have hsorted : (results.mergeSort resultLE).Pairwise (fun a b => resultLE a b = true) :=
    List.sorted_mergeSort resultLE_trans resultLE_total results
  have hsR : (results.mergeSort resultLE).Pairwise sortedRel :=
    hsorted.imp (fun h => (resultLE_iff _ _).mp h)
  refine ⟨?_, List.mergeSort_perm results resultLE, ?_, ?_, searchCore_eq_finalize⟩
  · intro mr
    unfold finalize
    cases mr with
    | none => exact hsR
    | some m =>
      dsimp only
      split
      · exact List.Pairwise.sublist (List.take_sublist _ _) hsR
      · exact hsR
  · intro k hk
    unfold finalize
    dsimp only
    rw [if_pos hk]
  · intro k hk
    unfold finalize
    dsimp only
    rw [if_neg (by omega)]

/-- Witness for C3 at a concrete input: a positive `max_results` of 1
truncates the sorted two-element list to its first entry. -/
theorem c3_sort_truncate_witness :
    finalize (some 1)
        [⟨10, "a", "A", "t", "t", "u"⟩, ⟨20, "b", "B", "t", "t", "u"⟩] =
      (finalize none
        [⟨10, "a", "A", "t", "t", "u"⟩, ⟨20, "b", "B", "t", "t", "u"⟩]).take
          (Int.toNat 1) :=
  (c3_sort_truncate [⟨10, "a", "A", "t", "t", "u"⟩, ⟨20, "b", "B", "t", "t", "u"⟩]).2.2.1
    1 (by decide)

/-- Evaluation of `search` on a single shelf holding a single item with a
fresh, non-empty identifier: the item is returned exactly when it passes
URL validation and the type filter. -/
lemma searchCore_one (q : String) (ft : Option String) (sid : String) (it : Item)
    (cid : String) (hid : it.id = some cid) (hcid : cid ≠ "")
    (hps : isPeopleShelf sid = false) :
    searchCore q false ft none [⟨sid, [it]⟩] =
      if (validUrl (it.url.getD "") && passesFilter ft (it.url.getD "")) = true then
        [mkResult q 0 it cid]
      else [] := by
  rw [searchCore_eq_finalize]
  have h2 : ¬(cid = "" ∨ cid ∈ ([] : List String)) := by simp [hcid]
  simp only [processShelves, processItems, hid, hps, Bool.and_false, Bool.false_eq_true,
    if_false, h2, List.append_nil]
  split
  · show finalize none [mkResult q 0 it cid] = _
    simp [finalize, List.mergeSort_singleton]
  · exact finalize_nil none

/-- Claim C4 amended: with a truthy content-type filter, `movie` keeps an
item exactly when its URL contains `/movie/`, and `show` or `series`
exactly when it contains `/show/` (the filter value is lower-cased first);
any other filter value imposes no condition, so the item is kept whenever
it passed URL validation — it is NOT skipped. On a one-item shelf, the
returned identifiers are exactly those passing URL validation and the
filter. -/
theorem c4_filter :
    (∀ ft url : String, ft ≠ "" → pyLower ft = "movie" →
        passesFilter (some ft) url = substrB "/movie/" url) ∧
    (∀ ft url : String, ft ≠ "" → (pyLower ft = "show" ∨ pyLower ft = "series") →
        passesFilter (some ft) url = substrB "/show/" url) ∧
    (∀ ft url : String, ft ≠ "" → pyLower ft ≠ "movie" → pyLower ft ≠ "show" →
        pyLower ft ≠ "series" → passesFilter (some ft) url = true) ∧
    (∀ (q : String) (ft : Option String) (sid : String) (it : Item) (cid : String),
        it.id = some cid → cid ≠ "" → isPeopleShelf sid = false →
        (searchCore q false ft none [⟨sid, [it]⟩]).map SearchResult.id =
          if (validUrl (it.url.getD "") && passesFilter ft (it.url.getD "")) = true then
            [cid]
          else []) := by
  refine ⟨?_, ?_, ?_, ?_⟩
  · intro ft url hft hlow
    simp only [passesFilter, if_neg hft]
    rw [hlow]
    cases him : substrB "/movie/" url <;> simp [him]
  · intro ft url hft hlow
    simp only [passesFilter, if_neg hft]
    rcases hlow with hlow | hlow <;> rw [hlow] <;>
      cases his : substrB "/show/" url <;> simp [his]
  · intro ft url hft h1 h2 h3
    simp only [passesFilter, if_neg hft]
    simp [h1, h2, h3]
  · intro q ft sid it cid hid hcid hps
    rw [searchCore_one q ft sid it cid hid hcid hps]
    split
    · simp [mkResult]
    · simp

/-- Witness for C4 amended at a concrete input: the filter value "Movie"
(lower-cased to "movie") keeps exactly the items whose URL contains
`/movie/`. -/
theorem c4_filter_witness :
    passesFilter (some "Movie") "https://tv.apple.com/us/show/x" =
      substrB "/movie/" "https://tv.apple.com/us/show/x" :=
  c4_filter.1 "Movie" "https://tv.apple.com/us/show/x" (by decide) (by decide)

/-- Counterexample to claim C4 as stated: the filter value "documentary"
is neither `movie` nor `show`/`series`, and the claim says such a value
causes every item to be skipped — but the code imposes no condition, and
the `/movie/` item below is returned. -/
theorem c4_filter_cex :
    passesFilter (some "documentary") "https://tv.apple.com/us/movie/interstellar" = true ∧
    (searchCore "q" false (some "documentary") none
        [⟨"Top", [⟨some "m1", some "T", some "Movie", none,
                   some "https://tv.apple.com/us/movie/interstellar"⟩]⟩]).map
      SearchResult.id = ["m1"] := by
  constructor
  · decide
  · rw [searchCore_eq_finalize]
    simp +decide [processShelves, processItems, finalize, isPeopleShelf, substrB, pyLower,
      validUrl, passesFilter, mkResult, List.mergeSort_singleton]

/-- Claim C5 amended: with `include_people` unset, a shelf is skipped
whole — its items contribute nothing and burn no identifiers — exactly
when its identifier contains the substring "PN" matched case-SENSITIVELY,
or the substring "people" matched case-insensitively; with
`include_people` set, no shelf is skipped on this ground. -/
theorem c5_people_shelves :
    (∀ (q : String) (ft : Option String) (mr : Option Int) (sid : String) items rest,
        isPeopleShelf sid = true →
        searchCore q false ft mr (⟨sid, items⟩ :: rest) = searchCore q false ft mr rest) ∧
    (∀ (q : String) (ft : Option String) shelves seen,
        processShelves q true ft shelves seen = processShelvesAll q ft shelves seen) ∧
    (∀ (q : String) (ip : Bool) (ft : Option String) (sid : String) items rest seen,
        isPeopleShelf sid = false →
        processShelves q ip ft (⟨sid, items⟩ :: rest) seen =
          ((processShelves q ip ft rest (processItems q ft items 0 seen).1).1,
           (processItems q ft items 0 seen).2 ++
             (processShelves q ip ft rest (processItems q ft items 0 seen).1).2)) ∧
    (∀ sid, isPeopleShelf sid = (substrB "PN" sid || substrB "people" (pyLower sid))) := by
  refine ⟨?_, ?_, ?_, fun _ => rfl⟩
  · intro q ft mr sid items rest hps
    rw [searchCore_eq_finalize, searchCore_eq_finalize]
    simp only [processShelves, hps, Bool.not_false, Bool.true_and, if_true]
  · intro q ft shelves
    induction shelves with
    | nil => intro seen; rfl
    | cons sh rest ih =>
      intro seen
      simp only [processShelves, processShelvesAll, Bool.not_true, Bool.false_and,
        Bool.false_eq_true, if_false]
      rw [ih]
  · intro q ip ft sid items rest seen hps
    simp only [processShelves, hps, Bool.and_false, Bool.false_eq_true, if_false]

/-- Witness for C5 amended at a concrete input: a shelf whose identifier
is "uts.col.Featured.PN" is skipped whole when `include_people` is unset. -/
theorem c5_people_shelves_witness :
    searchCore "q" false none none [⟨"uts.col.Featured.PN", []⟩] =
      searchCore "q" false none none [] :=
  c5_people_shelves.1 "q" none none "uts.col.Featured.PN" [] [] (by decide)

/-- Counterexample to claim C5 as stated: the identifier "uts.col.pn"
contains the marker "PN" when matched case-insensitively (its lower-case
form contains "pn"), so the claim says the shelf is skipped — but the
code's "PN" test is case-sensitive, the shelf is traversed, and its item
is returned. -/
theorem c5_people_shelves_cex :
    substrB "pn" (pyLower "uts.col.pn") = true ∧
    isPeopleShelf "uts.col.pn" = false ∧
    (searchCore "q" false none none
        [⟨"uts.col.pn", [⟨some "p1", some "T", some "Person", none,
                          some "https://tv.apple.com/us/person/p"⟩]⟩]).map
      SearchResult.id = ["p1"] := by
  refine ⟨by decide, by decide, ?_⟩
  rw [searchCore_eq_finalize]
  simp +decide [processShelves, processItems, finalize, isPeopleShelf, substrB, pyLower,
    validUrl, passesFilter, mkResult, List.mergeSort_singleton]

/-- When no shelf matches the people marker, the people check never fires,
for either value of `include_people`. -/
lemma processShelves_eq_all (q : String) (ft : Option String) :
    ∀ shelves : List Shelf, (∀ sh ∈ shelves, isPeopleShelf sh.id = false) →
      ∀ (ip : Bool) seen,
        processShelves q ip ft shelves seen = processShelvesAll q ft shelves seen := by
  intro shelves
  induction shelves with
  | nil => intro _ ip seen; rfl
  | cons sh rest ih =>
    intro hall ip seen
    have hhead : isPeopleShelf sh.id = false := hall sh (List.mem_cons_self sh rest)
    have htail : ∀ sh2 ∈ rest, isPeopleShelf sh2.id = false :=
      fun sh2 h2 => hall sh2 (List.mem_cons_of_mem sh h2)
    simp only [processShelves, processShelvesAll, hhead, Bool.and_false,
      Bool.false_eq_true, if_false]
    rw [ih htail ip]

/-- Claim C9: the include-people option only controls shelf-level
skipping — the item loop does not depend on it at all, so on responses
with no people-marked shelf the two settings return identical lists; and
with include-people unset and no type filter, an item whose URL contains
`/person/` in a shelf not matching the people markers passes URL
validation and is returned. -/
theorem c9_person_items :
    (∀ (q : String) (ft : Option String) (mr : Option Int) shelves,
        (∀ sh ∈ shelves, isPeopleShelf sh.id = false) →
        searchCore q true ft mr shelves = searchCore q false ft mr shelves) ∧
    (∀ (q sid : String) (it : Item) (cid : String),
        it.id = some cid → cid ≠ "" → isPeopleShelf sid = false →
        substrB "/person/" (it.url.getD "") = true →
        validUrl (it.url.getD "") = true ∧
        (searchCore q false none none [⟨sid, [it]⟩]).map SearchResult.id = [cid]) := by
  constructor
  · intro q ft mr shelves hall
    rw [searchCore_eq_finalize, searchCore_eq_finalize,
      processShelves_eq_all q ft shelves hall true,
      processShelves_eq_all q ft shelves hall false]
  · intro q sid it cid hid hcid hps hperson
    have hvu : validUrl (it.url.getD "") = true := by
      unfold validUrl
      rw [hperson]
      simp [ne_empty_of_substrB hperson (by decide)]
    refine ⟨hvu, ?_⟩
    rw [searchCore_one q none sid it cid hid hcid hps]
    rw [if_pos (by simp [hvu, passesFilter])]
    simp [mkResult]

/-- Witness for C9 at a concrete input: a `/person/` item in the ordinary
shelf "Cast" is returned with include-people unset and no filter. -/
theorem c9_person_items_witness :
    (searchCore "q" false none none
        [⟨"Cast", [⟨some "p1", some "T", some "Person", none,
                    some "https://tv.apple.com/us/person/p"⟩]⟩]).map
      SearchResult.id = ["p1"] :=
  (c9_person_items.2 "q" "Cast"
    ⟨some "p1", some "T", some "Person", none, some "https://tv.apple.com/us/person/p"⟩
    "p1" rfl (by decide) (by decide) (by decide)).2

/-- Claim C7 amended: the resolver returns NOT_FOUND (Python `None`) on
the exception path (transport failure, non-success status, malformed
body) and on a missing or falsy region record, and returns the record's
storefront identifier as a string on success; but when the region record
is present and truthy while its `storefrontId` field is missing, it
returns the string "None" (Python `str(None)`) rather than NOT_FOUND.
Whenever it returns NOT_FOUND, the caller falls back to storefront
"143441" and surfaces a warning. -/
theorem c7_region_resolver :
    (∀ region : String, get_storefront_for_region region none = none) ∧
    (∀ (region : String) data, lookupRegion data (pyUpper region) = none →
        get_storefront_for_region region (some data) = none) ∧
    (∀ (region : String) data s, lookupRegion data (pyUpper region) = some (some s) →
        get_storefront_for_region region (some data) = some s) ∧
    (∀ (region : String) data, lookupRegion data (pyUpper region) = some none →
        get_storefront_for_region region (some data) = some "None") ∧
    (∀ (region : String) fetch, truthyS (some region) = true →
        get_storefront_for_region region fetch = none →
        initStorefront none (some region) fetch = ("143441", true)) := by
  refine ⟨fun _ => rfl, ?_, ?_, ?_, ?_⟩
  · intro region data h
    simp [get_storefront_for_region, h]
  · intro region data s h
    simp [get_storefront_for_region, h]
  · intro region data h
    simp [get_storefront_for_region, h]
  · intro region fetch htr hres
    have hne : region ≠ "" := by simpa [truthyS] using htr
    simp [initStorefront, truthyS, hne, hres]

/-- Witness for C7 at a concrete input: with "ZZ" absent from the fetched
mapping, the resolver returns NOT_FOUND and the caller selects "143441"
with a warning. -/
theorem c7_region_resolver_witness :
    initStorefront none (some "ZZ") (some [("US", some "143441")]) = ("143441", true) :=
  c7_region_resolver.2.2.2.2 "ZZ" (some [("US", some "143441")]) (by decide) (by decide)

/-- Counterexample to claim C7 as stated: the fetched mapping has a truthy
record for "US" whose `storefrontId` key is missing; the claim says any
missing key yields NOT_FOUND, but the resolver returns the string "None"
(`str(None)`), which is not NOT_FOUND and not a resolved identifier. -/
theorem c7_region_resolver_cex :
    get_storefront_for_region "us" (some [("US", none)]) = some "None" ∧
    get_storefront_for_region "us" (some [("US", none)]) ≠ none := by
  constructor
  · decide
  · decide

/-- Claim C8 amended: on the caught request-exception path (transport
failure, non-success HTTP status, undecodable body) `search` prints a
diagnostic and returns an empty list, and a response whose extracted
shelf list is falsy (absent, empty, or otherwise falsy) also yields an
empty list; but `search` is NOT raise-free on every unexpected JSON
shape — the extraction and loops run outside the `try` block, so a
syntactically valid response of unexpected type (for example a top-level
array) raises an `AttributeError` that propagates to the caller. -/
theorem c8_error_handling :
    (∀ (q : String) (ip : Bool) (ft : Option String) (mr : Option Int),
        searchFromJson q ip ft mr none = .ok (true, [])) ∧
    (∀ (q : String) (ip : Bool) (ft : Option String) (mr : Option Int) data sv,
        extractShelves data = .ok sv → jTruthy sv = false →
        searchFromJson q ip ft mr (some data) = .ok (false, [])) ∧
    (searchFromJson "q" false none none (some (.jarr [])) =
      .error .attributeError) := by
  refine ⟨fun _ _ _ _ => rfl, ?_, rfl⟩
  intro q ip ft mr data sv h1 h2
  simp [searchFromJson, h1, Bind.bind, Except.bind, h2, Pure.pure, Except.pure]

/-- Witness for C8 amended at a concrete input: an empty JSON object has
a falsy (defaulted, empty) shelf list and yields an empty result list. -/
theorem c8_error_handling_witness :
    searchFromJson "q" false none none (some (.jobj [])) = .ok (false, []) :=
  c8_error_handling.2.1 "q" false none none (.jobj []) (.jarr []) rfl (by decide)

/-- Counterexample to claim C8 as stated: the response parses to the JSON
object whose shelf list is `[42]`; the shelf `42` is not a dict, so
`shelf.get("id", "")` raises an `AttributeError` outside the `try` block
and `search` raises instead of returning an empty list. -/
theorem c8_error_handling_cex :
    searchFromJson "q" false none none
        (some (.jobj [("data",
          .jobj [("canvas", .jobj [("shelves", .jarr [.jnum 42])])])])) =
      .error .attributeError := rfl

end ATV
